import Mathlib

/-!
# Shallow embedding of `generate_version_report.py`

This file embeds the two core functions of the repository,
`calculate_project_status_to_date` (the daily state reconstructor) and
`projection_of_progress` (the forecast engine), as executable Lean
definitions, and proves the frozen claims about them.

Modelling conventions:
* Calendar days are integers (`ℤ`); a timestamp is a day together with a
  natural-number intra-day sequence key (Python compares full timestamps
  when sorting and compares `.date()` values against the current day).
* Python floats become exact rationals (`ℚ`); none of the claims depends
  on rounding, and exact equalities imply the spec's 1e-9 tolerance.
* A value that may be Python `None` or a float is a `PyVal`.
* The two interval bounds returned by
  `model.get_prediction(X_future).conf_int(alpha=0.05)` are
  `center ∓ tq * Real.sqrt seSq`, where `tq` is the fixed Student-t
  0.975-quantile and `seSq` the squared standard error; since `x ↦ tq * sqrt x`
  is a fixed strictly monotone map, a bound is fully determined by the pair
  `(center, seSq)`, and each projected row carries that pair
  (`ciCenter`, `ciSeSq`).  Statements about the bounds are made at this level.
-/

/-- A timezone-aware instant: calendar day plus an intra-day ordering key.
Models the `%Y-%m-%dT%H:%M:%S.%f%z` timestamps of `history.created`. -/
structure Timestamp where
  day : ℤ
  seq : ℕ
deriving DecidableEq

/-- Timestamp comparison (lexicographic), as `Bool`.  Models comparison of the
parsed `datetime` values in the `sorted(..., key=...)` call. -/
def tsLe (a b : Timestamp) : Bool :=
  decide (a.day < b.day) || (decide (a.day = b.day) && decide (a.seq ≤ b.seq))

/-- One entry of `history.items`: a single field change.  `asStatus` models
`str(item.toString)` (the value read when the field is `status`); `asPoints`
models `float(item.toString) if item.toString else float(0.0)` with `none`
for a falsy `item.toString` (Python `None` or the empty string), read when the
field is `Story point estimate`. -/
structure ChangeItem where
  field : String
  asStatus : String
  asPoints : Option ℚ
deriving DecidableEq

/-- One entry of `issue.changelog.histories`. -/
structure HistoryEntry where
  created : Timestamp
  items : List ChangeItem
deriving DecidableEq

/-- A Jira issue as consumed by the core: its key, its issue-type name
(`issue.fields.issuetype.name`) and its change history. -/
structure Issue where
  key : String
  issuetypeName : String
  histories : List HistoryEntry
deriving DecidableEq

/-- A Python value that is either `None` or a float.  The per-issue memo
`last_known_values[key]['story_points']` has this type dynamically. -/
inductive PyVal where
  | none : PyVal
  | num : ℚ → PyVal
deriving DecidableEq

/-- Python `story_points != last_story_points` where the left side is a float
and the right side a `PyVal` (`float != None` is `True`). -/
def pyNe (q : ℚ) (v : PyVal) : Bool :=
  match v with
  | .none => true
  | .num r => decide (q ≠ r)

/-- Python `last_story_points == float(0.0)` (`None == 0.0` is `False`). -/
def pyEqZero (v : PyVal) : Bool :=
  match v with
  | .none => false
  | .num r => decide (r = 0)

/-- Python `last_story_points if last_story_points else 0`:
`None` and `0.0` are falsy. -/
def pyTruthy (v : PyVal) : ℚ :=
  match v with
  | .none => 0
  | .num r => r

/-- Python `story_points - last_story_points`.  On `None` the source would
raise `TypeError`; that branch is unreachable (see `memo_all_num` reasoning in
the C10 development: the memo never holds `None`), so the returned value there
is irrelevant. -/
def pySubNum (q : ℚ) (v : PyVal) : ℚ :=
  match v with
  | .none => 0
  | .num r => q - r

/-- The local per-issue, per-day state recomputed by the inner scan
(`story_points`, `completed` of lines 74-75). -/
structure LocalState where
  story_points : ℚ
  completed : Bool
deriving DecidableEq

/-- Lines 89-93: apply one change item to the local state.  Unrecognized
fields fall through both branches and leave the state unchanged. -/
def applyChangeItem (s : LocalState) (c : ChangeItem) : LocalState :=
  if c.field = "status" then
    { s with completed := decide (c.asStatus = "Done") }
  else if c.field = "Story point estimate" then
    { s with story_points := c.asPoints.getD 0 }
  else s

/-- An item is recognized when its field is the status field or the
size-estimate field of the supplied mapping. -/
def recognizedField (c : ChangeItem) : Bool :=
  decide (c.field = "status") || decide (c.field = "Story point estimate")

/-- Lines 78-81: `sorted(issue.changelog.histories, key=parsed created)`.
Python `sorted` is stable; `List.insertionSort` with a reflexive total
relation is stable in the same way. -/
def sortedHistories (l : List HistoryEntry) : List HistoryEntry :=
  l.insertionSort (fun h k => tsLe h.created k.created = true)

/-- The `break` of line 87: keep scanning histories until the first one dated
after `d`. -/
def uptoDay (d : ℤ) : List HistoryEntry → List HistoryEntry
  | [] => []
  | h :: t => if h.created.day ≤ d then h :: uptoDay d t else []

/-- Lines 83-93: the as-of-day state of one issue. -/
def stateAsOf (issue : Issue) (d : ℤ) : LocalState :=
  (uptoDay d (sortedHistories issue.histories)).foldl
    (fun s h => h.items.foldl applyChangeItem s)
    { story_points := 0, completed := false }

/-- The memo `last_known_values`: issue key to `(story_points, completed)`. -/
abbrev Memo := List (String × PyVal × Bool)

/-- Line 67: `{issue.key: {'story_points': float(0.0), 'completed': False}}`. -/
def initMemo (issues : List Issue) : Memo :=
  issues.map (fun i => (i.key, PyVal.num 0, false))

/-- Dictionary lookup `last_known_values[issue.key]`.  The default is junk:
the key is always present because the memo is built from the same list. -/
def memoFind : Memo → String → PyVal × Bool
  | [], _ => (PyVal.num 0, false)
  | e :: t, k => if e.1 = k then e.2 else memoFind t k

/-- Line 109: `last_values['story_points'] = story_points` (a float). -/
def memoSetSP (m : Memo) (k : String) (q : ℚ) : Memo :=
  m.map (fun e => if e.1 = k then (e.1, PyVal.num q, e.2.2) else e)

/-- Line 116: `last_values['completed'] = completed`. -/
def memoSetCompleted (m : Memo) (k : String) (b : Bool) : Memo :=
  m.map (fun e => if e.1 = k then (e.1, e.2.1, b) else e)

/-- Line 119: `sum(1 for ... if values['story_points'] is None)` over the
memo entries. -/
def countNone : Memo → ℕ
  | [] => 0
  | e :: t => (if e.2.1 = PyVal.none then 1 else 0) + countNone t

/-- The mutable state threaded through the day loop: the three running totals
and the memo dictionary. -/
structure DayAcc where
  cc : ℚ      -- cumulative_story_points_completed
  ce : ℚ      -- cumulative_estimated_story_points
  cu : ℕ      -- cumulative_unestimated_stories
  memo : Memo
deriving DecidableEq

/-- Lines 72-119: the per-issue body of the day loop. -/
def processIssue (d : ℤ) (acc : DayAcc) (issue : Issue) : DayAcc :=
  let s := stateAsOf issue d
  let last := memoFind acc.memo issue.key
  if issue.issuetypeName = "Story" then
    let acc1 :=
      if pyNe s.story_points last.1 then
        { acc with
          ce := acc.ce +
            (if pyEqZero last.1 then s.story_points
             else pySubNum s.story_points last.1),
          memo := memoSetSP acc.memo issue.key s.story_points }
      else acc
    let acc2 :=
      if s.completed ≠ last.2 then
        { acc1 with
          cc :=
            if s.completed then
              acc1.cc + (if s.story_points = 0 then 0 else s.story_points)
            else if last.2 then acc1.cc - pyTruthy last.1
            else acc1.cc,
          memo := memoSetCompleted acc1.memo issue.key s.completed }
      else acc1
    { acc2 with cu := countNone acc2.memo }
  else acc

/-- One iteration of the `while` body over all issues. -/
def processDay (issues : List Issue) (acc : DayAcc) (d : ℤ) : DayAcc :=
  issues.foldl (processIssue d) acc

/-- One tuple appended to `data` (line 125). -/
structure SnapRow where
  date : ℤ
  completed : ℚ
  estimated : ℚ
  unestPct : ℚ
deriving DecidableEq

/-- Line 64: `sum(1 for issue in issues if ... == 'Story')`. -/
def totalStoryCount (issues : List Issue) : ℕ :=
  (issues.filter (fun i => decide (i.issuetypeName = "Story"))).length

/-- Lines 70-128 as a fuel recursion: the `while current_date <= latest_date`
loop runs exactly `(latest + 1 - current).toNat` times, emitting one row per
day. -/
def dayLoopGo (issues : List Issue) (total : ℕ) :
    ℕ → DayAcc → ℤ → List SnapRow
  | 0, _, _ => []
  | Nat.succ n, acc, d =>
    let acc2 := processDay issues acc d
    { date := d, completed := acc2.cc, estimated := acc2.ce,
      unestPct :=
        if 0 < total then ((acc2.cu : ℚ) / (total : ℚ)) * 100 else 0 } ::
      dayLoopGo issues total n acc2 (d + 1)

/-- The day loop from `earliest` through `latest` inclusive, started from the
freshly initialized totals and memo. -/
def replayRange (issues : List Issue) (earliest latest : ℤ) : List SnapRow :=
  dayLoopGo issues (totalStoryCount issues) ((latest + 1 - earliest).toNat)
    { cc := 0, ce := 0, cu := 0, memo := initMemo issues } earliest

/-- All histories of all issues, in issue order (the generator of
lines 52-56). -/
def allHistories (issues : List Issue) : List HistoryEntry :=
  (issues.map (fun i => i.histories)).flatten

/-- Lines 52-56: `min(...)` over the calendar days of every history.  The
`[]` value is junk: the source raises `ValueError` there, and
`calculate_project_status_to_date` branches before using it. -/
def earliestDay : List HistoryEntry → ℤ
  | [] => 0
  | h :: t => t.foldl (fun m e => min m e.created.day) h.created.day

/-- One row of the returned `historical_data` frame, after the filter of
line 135 and the `Days` column of line 136. -/
structure HistRow where
  date : ℤ
  days : ℤ
  completed : ℚ
  estimated : ℚ
  unestPct : ℚ
deriving DecidableEq

/-- Line 136: `Days = Date - Date.min()` over the filtered frame. -/
def addDays (rows : List SnapRow) : List HistRow :=
  match rows with
  | [] => []
  | r :: _ =>
    let m := (rows.map (fun s => s.date)).foldl min r.date
    rows.map (fun s =>
      { date := s.date, days := s.date - m, completed := s.completed,
        estimated := s.estimated, unestPct := s.unestPct })

/-- The possible outcomes of `calculate_project_status_to_date`.
`printedNoneReturn` models lines 40-42 (`print(...); return`, i.e. returning
`None`); `exn` models an untyped Python exception.  The constructors
`noDataError` and `configurationError` are the typed conditions named by the
spec (section 7); the source never produces them, and they exist so that the
spec's claims can be stated and decided. -/
inductive CalcOutcome where
  | ok : List HistRow → CalcOutcome
  | printedNoneReturn : CalcOutcome
  | noDataError : CalcOutcome
  | configurationError : CalcOutcome
  | exn : CalcOutcome
deriving DecidableEq

/-- Lines 37-138.  `versionStartDay` is the calendar day of
`version.startDate` (line 48 subtracts one day before comparing);
`today` is `datetime.now().date()`. -/
def calculate_project_status_to_date (issues : List Issue)
    (versionStartDay today : ℤ) : CalcOutcome :=
  if issues = [] then CalcOutcome.printedNoneReturn
  else if allHistories issues = [] then CalcOutcome.exn
  else
    let earliest := earliestDay (allHistories issues)
    let rows := replayRange issues earliest today
    let filtered := rows.filter (fun r => decide (versionStartDay - 1 ≤ r.date))
    CalcOutcome.ok (addDays filtered)

/-- The dates of a successful reconstruction result. -/
def histDates (o : CalcOutcome) : List ℤ :=
  match o with
  | .ok rows => rows.map (fun r => r.date)
  | _ => []

/-- The contiguous inclusive integer range `[a, b]`, via a fuel recursion. -/
def dayRangeGo : ℕ → ℤ → List ℤ
  | 0, _ => []
  | Nat.succ n, a => a :: dayRangeGo n (a + 1)

/-- `pd.date_range(a, b, freq='D')`: the days from `a` through `b`
inclusive, empty when `b < a`. -/
def dayRange (a b : ℤ) : List ℤ :=
  dayRangeGo (b + 1 - a).toNat a

/-!
## Forecast engine (`projection_of_progress`, lines 140-178)

The OLS fit of `sm.OLS(y, sm.add_constant(days)).fit()` is embedded by its
closed form.  When the design matrix has full rank (`detQ ≠ 0`) the fit is
the unique least-squares line.  When it is rank-deficient (all day indices
equal, which in the pipeline means a single historical row with day index 0)
`statsmodels` solves via `numpy.linalg.pinv`, which returns the
minimum-norm least-squares solution; for constant regressor value `c` that
solution is `(ybar/(1+c^2), c*ybar/(1+c^2))`.
-/

/-- The sample points `(day_index, completed_total)` of the historical frame. -/
def histPts (hist : List HistRow) : List (ℚ × ℚ) :=
  hist.map (fun r => ((r.days : ℚ), r.completed))

/-- Sample size as a rational. -/
def nQ (pts : List (ℚ × ℚ)) : ℚ := pts.length

/-- Sum of the regressor values. -/
def sX (pts : List (ℚ × ℚ)) : ℚ := (pts.map (fun p => p.1)).sum

/-- Sum of the response values. -/
def sY (pts : List (ℚ × ℚ)) : ℚ := (pts.map (fun p => p.2)).sum

/-- Sum of squared regressor values. -/
def sXX (pts : List (ℚ × ℚ)) : ℚ := (pts.map (fun p => p.1 * p.1)).sum

/-- Sum of regressor-response products. -/
def sXY (pts : List (ℚ × ℚ)) : ℚ := (pts.map (fun p => p.1 * p.2)).sum

/-- Determinant of the Gram matrix of the design `[1, x]`. -/
def detQ (pts : List (ℚ × ℚ)) : ℚ := nQ pts * sXX pts - sX pts ^ 2

/-- The fitted `(intercept, slope)` of `sm.OLS(y, sm.add_constant(x)).fit()`:
the normal-equation solution when the Gram matrix is invertible, the
`pinv` minimum-norm solution otherwise. -/
def olsFit (pts : List (ℚ × ℚ)) : ℚ × ℚ :=
  if detQ pts = 0 then
    match pts with
    | [] => (0, 0)
    | p :: _ =>
      let c := p.1
      let ybar := sY pts / nQ pts
      (ybar / (1 + c ^ 2), c * ybar / (1 + c ^ 2))
  else
    ((sY pts * sXX pts - sX pts * sXY pts) / detQ pts,
     (nQ pts * sXY pts - sX pts * sY pts) / detQ pts)

/-- `model.predict` at day index `j`. -/
def olsPred (pts : List (ℚ × ℚ)) (j : ℚ) : ℚ :=
  (olsFit pts).1 + (olsFit pts).2 * j

/-- Residual sum of squares of the fit. -/
def ssrQ (pts : List (ℚ × ℚ)) : ℚ :=
  (pts.map (fun p => (p.2 - olsPred pts p.1) ^ 2)).sum

/-- `model.scale`: residual variance `ssr / df_resid` with
`df_resid = n - 2`. -/
def scaleQ (pts : List (ℚ × ℚ)) : ℚ := ssrQ pts / (nQ pts - 2)

/-- The quadratic form `x (X'X)⁻¹ xᵀ` at the row `x = (1, j)`:
`(Sxx - 2 j Sx + j² n) / det`.  This is the leverage factor that
`get_prediction` multiplies by `model.scale` to obtain the variance of the
predicted mean. -/
def covQuad (pts : List (ℚ × ℚ)) (j : ℚ) : ℚ :=
  (sXX pts - 2 * j * sX pts + j ^ 2 * nQ pts) / detQ pts

/-- The squared standard error behind
`model.get_prediction(X_future).conf_int(alpha=0.05)`: with the default
`obs=False` this is the variance of the predicted **mean**,
`scale * x (X'X)⁻¹ xᵀ` (no residual-variance term for a new observation). -/
def seSqMean (pts : List (ℚ × ℚ)) (j : ℚ) : ℚ :=
  scaleQ pts * covQuad pts j

/-- Modelled from the spec (sections 4.2 and 8), not from the source: the
squared standard error of the standard OLS two-sided prediction interval for
a **new observation**, `scale * (1 + 1/n + (j - x̄)² / Sxx)`, i.e. residual
variance plus leverage.  Used only to compare the source's interval against
the spec's words (claim C9). -/
def spec_predictionSeSq (pts : List (ℚ × ℚ)) (j : ℚ) : ℚ :=
  scaleQ pts *
    (1 + 1 / nQ pts + (j - sX pts / nQ pts) ^ 2 / (sXX pts - sX pts ^ 2 / nQ pts))

/-- A default historical row (used as the irrelevant `getLastD` fallback on
lists that are provably nonempty). -/
def emptyHistRow : HistRow :=
  { date := 0, days := 0, completed := 0, estimated := 0, unestPct := 0 }

/-- `historical_data['Date'].min()` (line 152). -/
def histMinDate : List HistRow → ℤ
  | [] => 0
  | h :: t => t.foldl (fun m r => min m r.date) h.date

/-- One row of the returned `projected_data` frame.  `projected` is the
shifted point estimate; the two interval bounds are
`ciCenter ∓ tq * Real.sqrt ciSeSq` (see the header comment), so `ciCenter`
carries the continuity shift applied to the bounds on lines 171-172 and
`ciSeSq` the squared standard error of line 167-168. -/
structure ProjRow where
  date : ℤ
  day : ℤ
  projected : ℚ
  estCarry : ℚ
  ciCenter : ℚ
  ciSeSq : ℚ
deriving DecidableEq

/-- Outcomes of `projection_of_progress`.  `exn` models an untyped Python
exception.  `forecastUndefinedError` and `windowEmptyError` are the typed
conditions named by the spec (section 7); the source never produces them,
and they exist so that the spec's claims can be stated and decided. -/
inductive ProjResult where
  | ok : List ProjRow → ProjResult
  | forecastUndefinedError : ProjResult
  | windowEmptyError : ProjResult
  | exn : ProjResult
deriving DecidableEq

/-- The continuity offset of line 161:
`start_value - projected_points.iloc[0]`, where the first projected day is
`today` (the first entry of `pd.date_range(today, target)`). -/
def projOffset (hist : List HistRow) (today : ℤ) : ℚ :=
  (hist.getLastD emptyHistRow).completed -
    olsPred (histPts hist) ((today - histMinDate hist : ℤ) : ℚ)

/-- The rows of the `projected_data` frame (lines 151-172). -/
def projRows (hist : List HistRow) (today target : ℤ) : List ProjRow :=
  (dayRange today target).map (fun d =>
    { date := d,
      day := d - histMinDate hist,
      projected :=
        olsPred (histPts hist) ((d - histMinDate hist : ℤ) : ℚ) +
          projOffset hist today,
      estCarry := (hist.getLastD emptyHistRow).estimated,
      ciCenter :=
        olsPred (histPts hist) ((d - histMinDate hist : ℤ) : ℚ) +
          projOffset hist today,
      ciSeSq := seSqMean (histPts hist) ((d - histMinDate hist : ℤ) : ℚ) })

/-- The constant-column detection of
`sm.add_constant(data, has_constant='skip')` (default): a column whose
peak-to-peak range is zero (every entry equals the first) and whose entries
are all nonzero — under ptp 0 this reduces to the first entry being
nonzero — is treated as an already-present constant, and no intercept
column is added.  A zero column does not count as a constant. -/
def isNonzeroConstColumn : List ℤ → Bool
  | [] => false
  | x :: t => t.all (fun y => decide (y = x)) && decide (x ≠ 0)

/-- Lines 140-178.  On an empty historical frame the OLS call raises
(untyped); on an empty projection window (`target < today`, so
`pd.date_range(today, target)` is empty) the frame construction raises an
untyped exception (`sm.add_constant` / `iloc[0]` on an empty frame).  When
the future `Days` column is a nonzero constant — a single future day
(`target = today`) whose day index `today - min(Date)` is nonzero —
`sm.add_constant` on line 157 skips the intercept for it, and
`model.predict` on line 158 raises an untyped `ValueError` against the
two-parameter fit (the historical design matrix of line 143 always receives
its intercept, because the historical `Days` column of line 136 starts at 0:
it is either non-constant or the zero column).  Otherwise the projected
frame is returned alongside the unchanged historical frame. -/
def projection_of_progress (hist : List HistRow) (today target : ℤ) :
    ProjResult :=
  if hist = [] then ProjResult.exn
  else if dayRange today target = [] then ProjResult.exn
  else if isNonzeroConstColumn
      ((dayRange today target).map (fun d => d - histMinDate hist)) then
    ProjResult.exn
  else ProjResult.ok (projRows hist today target)

/-- The dates of a successful projection result. -/
def projDates (o : ProjResult) : List ℤ :=
  match o with
  | .ok rows => rows.map (fun r => r.date)
  | _ => []

/-- The rows of a successful projection result. -/
def projRowsOf (o : ProjResult) : List ProjRow :=
  match o with
  | .ok rows => rows
  | _ => []

/-!
## Derived statistics named by the spec, and concrete fixtures
-/

/-- Mean of the regressor values. -/
def meanXQ (pts : List (ℚ × ℚ)) : ℚ := sX pts / nQ pts

/-- Centered sum of squares `Sxx = Σ(x - x̄)²` of the regressor. -/
def sxxCentered (pts : List (ℚ × ℚ)) : ℚ := sXX pts - sX pts ^ 2 / nQ pts

/-- Item A of the spec's concrete scenario: a size-estimate event on day 1
setting the estimate to 5, and a status event on day 3 setting the terminal
`Done` value. -/
def issueA : Issue :=
  { key := "A", issuetypeName := "Story",
    histories :=
      [ { created := { day := 1, seq := 0 },
          items := [{ field := "Story point estimate", asStatus := "5",
                      asPoints := some 5 }] },
        { created := { day := 3, seq := 0 },
          items := [{ field := "status", asStatus := "Done",
                      asPoints := none }] } ] }

/-- Item B of the spec's concrete scenario: a size-estimate event on day 2
setting the estimate to 3; never done. -/
def issueB : Issue :=
  { key := "B", issuetypeName := "Story",
    histories :=
      [ { created := { day := 2, seq := 0 },
          items := [{ field := "Story point estimate", asStatus := "3",
                      asPoints := some 3 }] } ] }

/-- A single story with one size-estimate event on day 1. -/
def issueA1 : Issue :=
  { key := "A", issuetypeName := "Story",
    histories :=
      [ { created := { day := 1, seq := 0 },
          items := [{ field := "Story point estimate", asStatus := "5",
                      asPoints := some 5 }] } ] }

/-- A story whose only change event has a field (`Flagged`) that the
supplied status/estimate mapping does not recognize. -/
def issueF : Issue :=
  { key := "F", issuetypeName := "Story",
    histories :=
      [ { created := { day := 1, seq := 0 },
          items := [{ field := "Flagged", asStatus := "x",
                      asPoints := none }] } ] }

/-- A one-day historical series: day index 0, completed 7, estimated 9. -/
def hist1ex : List HistRow :=
  [{ date := 12, days := 0, completed := 7, estimated := 9, unestPct := 0 }]

/-- A two-day historical series ending on day 11 with completed total 2. -/
def hist2ex : List HistRow :=
  [ { date := 10, days := 0, completed := 0, estimated := 4, unestPct := 0 },
    { date := 11, days := 1, completed := 2, estimated := 4, unestPct := 0 } ]

/-- A three-day historical series with nonzero fit residuals
(completed totals 0, 2, 2 on day indices 0, 1, 2). -/
def hist3ex : List HistRow :=
  [ { date := 10, days := 0, completed := 0, estimated := 5, unestPct := 0 },
    { date := 11, days := 1, completed := 2, estimated := 5, unestPct := 0 },
    { date := 12, days := 2, completed := 2, estimated := 5, unestPct := 0 } ]

/-!
## Theorems
-/

/-- C1: the reconstructor run on the spec's two-item scenario over days 1-4.
The code emits day 1 with `estimated = 5`, `completed = 0` and an
unestimated percentage of `0` — not the `50` the claim requires — and days
2-4 exactly as the claim states them.  The `is None` test of line 119 never
fires because the memo is initialized to the float `0.0` and only ever
reassigned floats, although the code's own comment says it is meant to track
unestimated stories; the unestimated share of day 1 (item B still unknown)
is silently lost. -/
theorem c1_replay_at_failing_input :
    replayRange [issueA, issueB] 1 4 =
      [ { date := 1, completed := 0, estimated := 5, unestPct := 0 },
        { date := 2, completed := 0, estimated := 8, unestPct := 0 },
        { date := 3, completed := 5, estimated := 8, unestPct := 0 },
        { date := 4, completed := 5, estimated := 8, unestPct := 0 } ] := by
  have hAB : ("A" : String) ≠ "B" := by decide
  have hBA : ("B" : String) ≠ "A" := by decide
  have hsp : ("Story point estimate" : String) ≠ "status" := by decide
  have h5 : (5 : ℚ) ≠ 0 := by norm_num
  have h3 : (3 : ℚ) ≠ 0 := by norm_num
  simp [replayRange, dayLoopGo, processDay, processIssue, stateAsOf,
    uptoDay, sortedHistories, List.insertionSort, List.orderedInsert, tsLe,
    applyChangeItem, initMemo, memoFind, memoSetSP, memoSetCompleted,
    countNone, totalStoryCount, pyNe, pyEqZero, pyTruthy, pySubNum,
    issueA, issueB, hAB, hBA, hsp, h5, h3]
  norm_num

lemma dayRange_eq_nil {a b : ℤ} (h : b < a) : dayRange a b = [] := by
  have hz : (b + 1 - a).toNat = 0 := by omega
  simp [dayRange, hz, dayRangeGo]

lemma dayRange_cons {a b : ℤ} (h : a ≤ b) :
    dayRange a b = a :: dayRange (a + 1) b := by
  have hz : (b + 1 - a).toNat = (b + 1 - (a + 1)).toNat + 1 := by omega
  simp [dayRange, hz, dayRangeGo]

lemma dayRange_ne_nil {a b : ℤ} (h : a ≤ b) : dayRange a b ≠ [] := by
  rw [dayRange_cons h]; simp

lemma dayLoopGo_map_date (issues : List Issue) (total : ℕ) :
    ∀ (n : ℕ) (acc : DayAcc) (d : ℤ),
      (dayLoopGo issues total n acc d).map (fun r => r.date) = dayRangeGo n d := by
  intro n
  induction n with
  | zero => intro acc d; simp [dayLoopGo, dayRangeGo]
  | succ n ih => intro acc d; simp [dayLoopGo, dayRangeGo, ih]

lemma filter_dayRange (t b : ℤ) :
    ∀ (n : ℕ) (a : ℤ), (b + 1 - a).toNat = n →
      (dayRange a b).filter (fun d => decide (t ≤ d)) = dayRange (max a t) b := by
  intro n
  induction n with
  | zero =>
    intro a h
    have hba : b < a := by omega
    have hba2 : b < max a t := lt_of_lt_of_le hba (le_max_left a t)
    rw [dayRange_eq_nil hba, dayRange_eq_nil hba2]
    simp
  | succ n ih =>
    intro a h
    have hab : a ≤ b := by omega
    rw [dayRange_cons hab, List.filter_cons]
    have iha := ih (a + 1) (by omega)
    by_cases hta : t ≤ a
    · have hmax : max a t = a := by omega
      have hmax1 : max (a + 1) t = a + 1 := by omega
      simp only [decide_eq_true_eq]
      rw [if_pos hta, iha, hmax1, hmax, dayRange_cons hab]
    · have hmax : max a t = t := by omega
      have hmax1 : max (a + 1) t = t := by omega
      simp only [decide_eq_true_eq]
      rw [if_neg hta, iha, hmax1, hmax]

lemma map_date_filter (t : ℤ) :
    ∀ l : List SnapRow,
      ((l.filter (fun r => decide (t ≤ r.date))).map (fun r => r.date)) =
        (l.map (fun r => r.date)).filter (fun d => decide (t ≤ d)) := by
  intro l
  induction l with
  | nil => simp
  | cons r l ih =>
    by_cases h : t ≤ r.date
    · simp [List.filter_cons, h, ih]
    · simp [List.filter_cons, h, ih]

lemma addDays_map_date :
    ∀ l : List SnapRow, (addDays l).map (fun r => r.date) = l.map (fun s => s.date) := by
  intro l
  cases l with
  | nil => simp [addDays]
  | cons r t => simp [addDays, List.map_map]

/-- C2 (amended): the dates of the returned snapshot sequence are exactly
the contiguous inclusive day range from
`max(earliest event day, version start day - 1)` to the as-of day: the
line-135 filter cuts the range at the day before the version start, and
otherwise the claim's contiguity statement holds verbatim. -/
theorem c2_amended_dates (issues : List Issue) (versionStartDay today : ℤ)
    (h1 : issues ≠ []) (h2 : allHistories issues ≠ []) :
    histDates (calculate_project_status_to_date issues versionStartDay today) =
      dayRange (max (earliestDay (allHistories issues)) (versionStartDay - 1))
        today := by
  set e := earliestDay (allHistories issues) with he
  rw [calculate_project_status_to_date]
  rw [if_neg h1, if_neg h2]
  rw [histDates, addDays_map_date, map_date_filter, replayRange,
    dayLoopGo_map_date]
  have hshow : dayRangeGo (today + 1 - e).toNat e = dayRange e today := rfl
  rw [hshow, filter_dayRange _ today _ e rfl]

/-- C2 witness: a concrete run of the amended statement.  One story with a
single event on day 1, version start day 4, as-of day 4: the returned dates
are exactly `dayRange (max 1 3) 4 = [3, 4]`. -/
theorem c2_amended_dates_witness :
    histDates (calculate_project_status_to_date [issueA1] 4 4) =
      dayRange (max (earliestDay (allHistories [issueA1])) (4 - 1)) 4 :=
  c2_amended_dates [issueA1] 4 4 (by simp) (by simp [allHistories, issueA1])

/-- C2 counterexample: in the same concrete run the earliest event day is 1
and the as-of day is 4, but the returned dates are `[3, 4]`, not the
contiguous range from the earliest event day to the as-of day
`[1, 2, 3, 4]`: the claim as stated is false because of the
version-start-date filter of line 135. -/
theorem c2_counterexample :
    earliestDay (allHistories [issueA1]) = 1 ∧
      histDates (calculate_project_status_to_date [issueA1] 4 4) = [3, 4] ∧
      histDates (calculate_project_status_to_date [issueA1] 4 4) ≠
        dayRange (earliestDay (allHistories [issueA1])) 4 := by
  have hE : earliestDay (allHistories [issueA1]) = 1 := by
    simp [allHistories, issueA1, earliestDay]
  have hsp : ("Story point estimate" : String) ≠ "status" := by decide
  have h5 : (5 : ℚ) ≠ 0 := by norm_num
  have hD : histDates (calculate_project_status_to_date [issueA1] 4 4) = [3, 4] := by
    simp [calculate_project_status_to_date, allHistories, issueA1, earliestDay,
      replayRange, dayLoopGo, processDay, processIssue, stateAsOf, uptoDay,
      sortedHistories, List.insertionSort, List.orderedInsert, tsLe,
      applyChangeItem, initMemo, memoFind, memoSetSP, memoSetCompleted,
      countNone, totalStoryCount, pyNe, pyEqZero, pyTruthy, pySubNum,
      hsp, h5, histDates, addDays, List.filter_cons]
  refine ⟨hE, hD, ?_⟩
  rw [hD, hE]
  have h14 : dayRange 1 4 = [1, 2, 3, 4] := by
    rw [dayRange_cons (by omega), dayRange_cons (by omega),
      dayRange_cons (by omega), dayRange_cons (by omega),
      dayRange_eq_nil (by omega)]
    norm_num
  rw [h14]
  simp

lemma map_date_of_map (f : ℤ → ProjRow) (hf : ∀ d, (f d).date = d) :
    ∀ l : List ℤ, (l.map f).map (fun r => r.date) = l := by
  intro l
  induction l with
  | nil => rfl
  | cons a t ih => simp [hf, ih]

lemma no_crash_column (hist : List HistRow) (today target : ℤ)
    (hw : today ≤ target)
    (hnc : ¬ (target = today ∧ today - histMinDate hist ≠ 0)) :
    isNonzeroConstColumn
      ((dayRange today target).map (fun d => d - histMinDate hist)) = false := by
  rcases lt_or_eq_of_le hw with hlt | heq
  · rw [dayRange_cons hw, dayRange_cons (by omega : today + 1 ≤ target)]
    have hne2 : today + 1 - histMinDate hist ≠ today - histMinDate hist := by
      omega
    simp [isNonzeroConstColumn, hne2]
  · have hz : today - histMinDate hist = 0 := by
      by_contra hz
      exact hnc ⟨heq.symm, hz⟩
    rw [← heq, dayRange_cons (le_refl today), dayRange_eq_nil (by omega)]
    simp [isNonzeroConstColumn, hz]

lemma projection_ok (hist : List HistRow) (today target : ℤ)
    (hne : hist ≠ []) (hw : today ≤ target)
    (hnc : ¬ (target = today ∧ today - histMinDate hist ≠ 0)) :
    projection_of_progress hist today target =
      ProjResult.ok (projRows hist today target) := by
  rw [projection_of_progress, if_neg hne, if_neg (dayRange_ne_nil hw),
    if_neg]
  rw [no_crash_column hist today target hw hnc]
  simp

lemma projection_crash (hist : List HistRow) (today target : ℤ)
    (hne : hist ≠ []) (heq : target = today)
    (hm : today - histMinDate hist ≠ 0) :
    projection_of_progress hist today target = ProjResult.exn := by
  have hw : today ≤ target := le_of_eq heq.symm
  rw [projection_of_progress, if_neg hne, if_neg (dayRange_ne_nil hw)]
  have hcol : isNonzeroConstColumn
      ((dayRange today target).map (fun d => d - histMinDate hist)) = true := by
    rw [heq, dayRange_cons (le_refl today), dayRange_eq_nil (by omega)]
    simp [isNonzeroConstColumn, hm]
  rw [if_pos hcol]

/-- C3 (amended): the forecast sequence covers exactly the days from the
last historical day — which the source takes to be the current day, the
start of `pd.date_range` on line 151 — through the target date inclusive,
not from the day after: the first projected date coincides with the last
historical date instead of being strictly after it. -/
theorem c3_amended_cover (hist : List HistRow) (today target : ℤ)
    (hne : hist ≠ []) (hw : today ≤ target)
    (hnc : ¬ (target = today ∧ today - histMinDate hist ≠ 0)) :
    projDates (projection_of_progress hist today target) =
      dayRange today target := by
  rw [projection_ok hist today target hne hw hnc]
  rw [projDates, projRows]
  exact map_date_of_map _ (fun d => rfl) _

/-- C3 witness: the amended statement at a concrete input. -/
theorem c3_witness :
    projDates (projection_of_progress hist2ex 11 13) = dayRange 11 13 :=
  c3_amended_cover hist2ex 11 13 (by simp [hist2ex]) (by omega)
    (by intro h; exact absurd h.1 (by norm_num))

/-- C3 counterexample: for a concrete history whose last snapshot is dated
day 11 (today), forecasting to day 13 produces points dated 11, 12 and 13 —
the first produced point is dated 11, which is not strictly after the last
historical date 11, so the claim as stated is false. -/
theorem c3_counterexample :
    projDates (projection_of_progress hist2ex 11 13) = [11, 12, 13] ∧
      (hist2ex.map (fun r => r.date)).getLastD 0 = 11 ∧
      ¬ (∀ d ∈ projDates (projection_of_progress hist2ex 11 13),
          (hist2ex.map (fun r => r.date)).getLastD 0 < d) := by
  have hne : hist2ex ≠ [] := by simp [hist2ex]
  have hdr : dayRange 11 13 = [11, 12, 13] := by
    rw [dayRange_cons (by omega), dayRange_cons (by omega),
      dayRange_cons (by omega), dayRange_eq_nil (by omega)]
    norm_num
  have hdates : projDates (projection_of_progress hist2ex 11 13) = [11, 12, 13] := by
    rw [projection_ok hist2ex 11 13 hne (by omega)
      (by intro h; exact absurd h.1 (by norm_num))]
    rw [projDates, projRows]
    rw [map_date_of_map _ (fun d => rfl) _, hdr]
  have hlast : (hist2ex.map (fun r => r.date)).getLastD 0 = 11 := by
    simp [hist2ex]
  refine ⟨hdates, hlast, ?_⟩
  rw [hdates, hlast]
  intro hall
  exact absurd (hall 11 (by norm_num)) (by omega)

/-- C4 (confirmed): whenever at least one forecast point is produced, the
first point's projected value equals the last historical completed total
(exactly, in the exact arithmetic of the embedding, hence within any
tolerance), and every projected point and interval center is the unshifted
prediction plus the single constant offset `projOffset` computed once from
the prediction at the first projected day, with the squared standard error
left unshifted. -/
theorem c4_continuity_shift (hist : List HistRow) (today target : ℤ)
    (hne : hist ≠ []) (hw : today ≤ target)
    (hnc : ¬ (target = today ∧ today - histMinDate hist ≠ 0)) :
    ∃ rows, projection_of_progress hist today target = ProjResult.ok rows ∧
      rows.head?.map (fun r => r.projected) =
        some ((hist.getLastD emptyHistRow).completed) ∧
      ∀ r ∈ rows,
        r.projected =
          olsPred (histPts hist) ((r.day : ℚ)) + projOffset hist today ∧
        r.ciCenter =
          olsPred (histPts hist) ((r.day : ℚ)) + projOffset hist today ∧
        r.ciSeSq = seSqMean (histPts hist) ((r.day : ℚ)) := by
  refine ⟨projRows hist today target,
    projection_ok hist today target hne hw hnc, ?_, ?_⟩
  · rw [projRows, dayRange_cons hw]
    simp only [List.map_cons, List.head?_cons, Option.map_some']
    rw [projOffset]
    norm_num
  · intro r hr
    rw [projRows] at hr
    obtain ⟨d, hd, rfl⟩ := List.mem_map.1 hr
    exact ⟨rfl, rfl, rfl⟩

/-- C4 witness: the statement at a concrete two-day history. -/
theorem c4_witness :
    ∃ rows, projection_of_progress hist2ex 11 12 = ProjResult.ok rows ∧
      rows.head?.map (fun r => r.projected) =
        some ((hist2ex.getLastD emptyHistRow).completed) ∧
      ∀ r ∈ rows,
        r.projected =
          olsPred (histPts hist2ex) ((r.day : ℚ)) + projOffset hist2ex 11 ∧
        r.ciCenter =
          olsPred (histPts hist2ex) ((r.day : ℚ)) + projOffset hist2ex 11 ∧
        r.ciSeSq = seSqMean (histPts hist2ex) ((r.day : ℚ)) :=
  c4_continuity_shift hist2ex 11 12 (by simp [hist2ex]) (by omega)
    (by intro h; exact absurd h.1 (by norm_num))

/-- C5 (amended): on a one-day history the engine signals nothing: the
rank-deficient fit is solved by the pseudo-inverse, which yields intercept
equal to the single completed value and slope 0 — a flat line through the
single point — and projection succeeds, every projected value equal to that
completed value.  The historical series is untouched.  No
`ForecastUndefinedError` (or any typed condition) exists in the source. -/
theorem c5_amended_flat_fit (dt : ℤ) (v est pct : ℚ) (today target : ℤ)
    (hw : today ≤ target) (hnc : ¬ (target = today ∧ today ≠ dt)) :
    olsFit (histPts
        [{ date := dt, days := 0, completed := v, estimated := est,
           unestPct := pct }]) = (v, 0) ∧
    ∃ rows,
      projection_of_progress
          [{ date := dt, days := 0, completed := v, estimated := est,
             unestPct := pct }] today target = ProjResult.ok rows ∧
        rows ≠ [] ∧ ∀ r ∈ rows, r.projected = v := by
  have hfit : olsFit (histPts
      [{ date := dt, days := 0, completed := v, estimated := est,
         unestPct := pct }]) = (v, 0) := by
    norm_num [olsFit, detQ, nQ, sX, sY, sXX, sXY, histPts]
  have hpred : ∀ j : ℚ, olsPred (histPts
      [{ date := dt, days := 0, completed := v, estimated := est,
         unestPct := pct }]) j = v := by
    intro j
    rw [olsPred, hfit]
    norm_num
  have hmd : histMinDate
      [{ date := dt, days := 0, completed := v, estimated := est,
         unestPct := pct }] = dt := rfl
  have hnc2 : ¬ (target = today ∧ today - histMinDate
      [{ date := dt, days := 0, completed := v, estimated := est,
         unestPct := pct }] ≠ 0) := by
    rw [hmd]
    intro h
    exact hnc ⟨h.1, by omega⟩
  refine ⟨hfit, projRows _ today target,
    projection_ok _ today target (by simp) hw hnc2, ?_, ?_⟩
  · rw [projRows]
    simp only [ne_eq, List.map_eq_nil_iff]
    exact dayRange_ne_nil hw
  · intro r hr
    rw [projRows] at hr
    obtain ⟨d, hd, rfl⟩ := List.mem_map.1 hr
    show olsPred _ _ + projOffset _ today = v
    rw [projOffset, hpred, hpred]
    simp [List.getLastD]

/-- C5 witness: the amended statement at a concrete one-day history. -/
theorem c5_witness :
    olsFit (histPts
        [{ date := 20, days := 0, completed := 3, estimated := 1,
           unestPct := 0 }]) = (3, 0) ∧
    ∃ rows,
      projection_of_progress
          [{ date := 20, days := 0, completed := 3, estimated := 1,
             unestPct := 0 }] 21 22 = ProjResult.ok rows ∧
        rows ≠ [] ∧ ∀ r ∈ rows, r.projected = 3 :=
  c5_amended_flat_fit 20 3 1 0 21 22 (by omega) (by omega)

/-- C5 counterexample: for the concrete one-day history `hist1ex`
(day index 0, completed 7) the engine does not signal
`ForecastUndefinedError`; it fits and returns three flat projected points of
value 7 — exactly the single-point flat-line fit the claim says must not
happen. -/
theorem c5_counterexample :
    projection_of_progress hist1ex 12 14 ≠ ProjResult.forecastUndefinedError ∧
      (projRowsOf (projection_of_progress hist1ex 12 14)).map
          (fun r => r.projected) = [7, 7, 7] := by
  have hok := projection_ok hist1ex 12 14 (by simp [hist1ex]) (by omega)
    (by intro h; exact absurd h.1 (by norm_num))
  have hdr : dayRange 12 14 = [12, 13, 14] := by
    rw [dayRange_cons (by omega), dayRange_cons (by omega),
      dayRange_cons (by omega), dayRange_eq_nil (by omega)]
    norm_num
  constructor
  · rw [hok]; simp
  · rw [hok]
    rw [projRowsOf, projRows, hdr]
    norm_num [hist1ex, histPts, histMinDate, projOffset, olsPred, olsFit,
      detQ, nQ, sX, sY, sXX, sXY, emptyHistRow]

/-- C6 (amended): fed a target date that is not after the last historical
day (today), the engine never reports a typed window-empty condition.  If
the target date is strictly before today, `pd.date_range` is empty and the
frame construction raises an untyped exception.  If the target date equals
today, the single future day index `today - min(Date)` is a one-entry
`Days` column: when it is nonzero (any history longer than one day),
`sm.add_constant` treats it as an existing constant, omits the intercept,
and `model.predict` raises an untyped `ValueError`; only in the degenerate
case where the first historical day is also today (a one-day history, day
index 0) is exactly one forecast point produced, dated that day. -/
theorem c6_amended_behavior (hist : List HistRow) (today target : ℤ)
    (hne : hist ≠ []) :
    (target < today →
      projection_of_progress hist today target = ProjResult.exn) ∧
    (target = today → histMinDate hist ≠ today →
      projection_of_progress hist today target = ProjResult.exn) ∧
    (target = today → histMinDate hist = today →
      ∃ r, projection_of_progress hist today target = ProjResult.ok [r] ∧
        r.date = today) := by
  refine ⟨?_, ?_, ?_⟩
  · intro hlt
    rw [projection_of_progress, if_neg hne, if_pos (dayRange_eq_nil hlt)]
  · intro heq hm
    exact projection_crash hist today target hne heq (by omega)
  · intro heq hm
    have hw : today ≤ target := le_of_eq heq.symm
    have hnc : ¬ (target = today ∧ today - histMinDate hist ≠ 0) := by
      intro h
      exact h.2 (by omega)
    have hdr : dayRange today target = [today] := by
      rw [heq, dayRange_cons (le_refl today), dayRange_eq_nil (by omega)]
    rw [projection_ok hist today target hne hw hnc, projRows, hdr]
    refine ⟨_, rfl, rfl⟩

/-- C6 witness: all three branches of the amended statement at concrete
inputs — a target before today, a target equal to today with a two-day
history (untyped failure), and a target equal to today with a one-day
history (a single point dated today). -/
theorem c6_witness :
    projection_of_progress hist2ex 11 10 = ProjResult.exn ∧
      projection_of_progress hist2ex 11 11 = ProjResult.exn ∧
      ∃ r, projection_of_progress hist1ex 12 12 = ProjResult.ok [r] ∧
        r.date = 12 :=
  ⟨(c6_amended_behavior hist2ex 11 10 (by simp [hist2ex])).1 (by omega),
   (c6_amended_behavior hist2ex 11 11 (by simp [hist2ex])).2.1 rfl
     (by norm_num [histMinDate, hist2ex]),
   (c6_amended_behavior hist1ex 12 12 (by simp [hist1ex])).2.2 rfl
     (by norm_num [histMinDate, hist1ex])⟩

/-- C6 counterexample: the claim as stated is false in both directions.
For the one-day history `hist1ex` (last snapshot dated 12) and target
date 12 — not after the last historical day — the engine produces one
forecast point (dated 12) instead of none, and does not report a
window-empty condition.  For the two-day history `hist2ex` (last snapshot
dated 11) and target date 11, the engine fails with an untyped exception
instead of reporting the typed condition. -/
theorem c6_counterexample :
    projDates (projection_of_progress hist1ex 12 12) = [12] ∧
      (hist1ex.map (fun r => r.date)).getLastD 0 = 12 ∧
      projDates (projection_of_progress hist1ex 12 12) ≠ [] ∧
      projection_of_progress hist1ex 12 12 ≠ ProjResult.windowEmptyError ∧
      projection_of_progress hist2ex 11 11 = ProjResult.exn ∧
      projection_of_progress hist2ex 11 11 ≠ ProjResult.windowEmptyError := by
  have hok := projection_ok hist1ex 12 12 (by simp [hist1ex]) (by omega)
    (by intro h; exact h.2 (by norm_num [histMinDate, hist1ex]))
  have hcrash : projection_of_progress hist2ex 11 11 = ProjResult.exn :=
    projection_crash hist2ex 11 11 (by simp [hist2ex]) rfl
      (by norm_num [histMinDate, hist2ex])
  have hdr : dayRange 12 12 = [12] := by
    rw [dayRange_cons (by omega), dayRange_eq_nil (by omega)]
  have hdates : projDates (projection_of_progress hist1ex 12 12) = [12] := by
    rw [hok, projDates, projRows]
    rw [map_date_of_map _ (fun d => rfl) _, hdr]
  refine ⟨hdates, by simp [hist1ex], by rw [hdates]; simp,
    by rw [hok]; simp, hcrash, by rw [hcrash]; simp⟩

lemma nQ_ne_zero (hist : List HistRow) (hne : hist ≠ []) :
    nQ (histPts hist) ≠ 0 := by
  have h1 : hist.length ≠ 0 := by
    simpa [List.length_eq_zero] using hne
  rw [nQ, histPts, List.length_map]
  exact_mod_cast h1

lemma covQuad_closed (pts : List (ℚ × ℚ)) (j : ℚ)
    (hn : nQ pts ≠ 0) (hd : detQ pts ≠ 0) :
    covQuad pts j = 1 / nQ pts + (j - meanXQ pts) ^ 2 / sxxCentered pts := by
  have hsxx : sxxCentered pts = detQ pts / nQ pts := by
    rw [sxxCentered, detQ]
    field_simp
    ring
  rw [covQuad, meanXQ, hsxx, detQ] at *
  field_simp
  ring

/-- C9 (amended): the squared standard error behind the produced bounds is
that of the predicted mean — `scale` times the leverage
`1/n + (j - x̄)²/Sxx` — with no residual-variance term for a new
observation: `conf_int` of `get_prediction` defaults to the confidence
interval of the mean, not a prediction interval. -/
theorem c9_amended_mean_ci (hist : List HistRow) (today target : ℤ)
    (hne : hist ≠ []) (hw : today ≤ target)
    (hnc : ¬ (target = today ∧ today - histMinDate hist ≠ 0))
    (hd : detQ (histPts hist) ≠ 0) :
    ∃ rows, projection_of_progress hist today target = ProjResult.ok rows ∧
      ∀ r ∈ rows,
        r.ciSeSq =
          scaleQ (histPts hist) *
            (1 / nQ (histPts hist) +
              ((r.day : ℚ) - meanXQ (histPts hist)) ^ 2 /
                sxxCentered (histPts hist)) := by
  refine ⟨projRows hist today target,
    projection_ok hist today target hne hw hnc, ?_⟩
  intro r hr
  rw [projRows] at hr
  obtain ⟨d, hdm, rfl⟩ := List.mem_map.1 hr
  show seSqMean (histPts hist) _ = _
  rw [seSqMean, covQuad_closed _ _ (nQ_ne_zero hist hne) hd]

/-- C9 witness: the amended statement at a concrete three-day history. -/
theorem c9_witness :
    ∃ rows, projection_of_progress hist3ex 12 13 = ProjResult.ok rows ∧
      ∀ r ∈ rows,
        r.ciSeSq =
          scaleQ (histPts hist3ex) *
            (1 / nQ (histPts hist3ex) +
              ((r.day : ℚ) - meanXQ (histPts hist3ex)) ^ 2 /
                sxxCentered (histPts hist3ex)) :=
  c9_amended_mean_ci hist3ex 12 13 (by simp [hist3ex]) (by omega)
    (by intro h; exact absurd h.1 (by norm_num))
    (by norm_num [detQ, nQ, sX, sXX, histPts, hist3ex])

/-- C9 counterexample: for the concrete three-day history `hist3ex`
(nonzero residuals) the first produced bound pair carries squared standard
error `5/9`, while the spec's standard OLS prediction-interval formula for a
new observation at the same day index gives `11/9`; the two differ, so the
produced bounds are not prediction intervals. -/
theorem c9_counterexample :
    ((projRowsOf (projection_of_progress hist3ex 12 13)).map
        (fun r => r.ciSeSq)).head? = some (5 / 9) ∧
      spec_predictionSeSq (histPts hist3ex) 2 = 11 / 9 ∧
      ((5 : ℚ) / 9) ≠ 11 / 9 := by
  have hok := projection_ok hist3ex 12 13 (by simp [hist3ex]) (by omega)
    (by intro h; exact absurd h.1 (by norm_num))
  have hdr : dayRange 12 13 = [12, 13] := by
    rw [dayRange_cons (by omega), dayRange_cons (by omega),
      dayRange_eq_nil (by omega)]
    norm_num
  refine ⟨?_, ?_, by norm_num⟩
  · rw [hok, projRowsOf, projRows, hdr]
    norm_num [hist3ex, histPts, histMinDate, seSqMean, scaleQ, ssrQ, covQuad,
      olsPred, olsFit, detQ, nQ, sX, sY, sXX, sXY]
  · norm_num [spec_predictionSeSq, hist3ex, histPts, scaleQ, ssrQ, olsPred,
      olsFit, detQ, nQ, sX, sY, sXX, sXY, meanXQ, sxxCentered]

/-- C7 (amended): on an empty work-item collection the reconstructor prints
a message and returns `None` (no typed condition, nothing computed); on a
non-empty collection none of whose items has any change event, the `min()`
over an empty generator raises an untyped `ValueError`.  No typed
`NoDataError` exists in the source. -/
theorem c7_amended_behavior (issues : List Issue) (versionStartDay today : ℤ) :
    (issues = [] →
      calculate_project_status_to_date issues versionStartDay today =
        CalcOutcome.printedNoneReturn) ∧
    (issues ≠ [] → allHistories issues = [] →
      calculate_project_status_to_date issues versionStartDay today =
        CalcOutcome.exn) := by
  constructor
  · intro h
    rw [calculate_project_status_to_date, if_pos h]
  · intro h1 h2
    rw [calculate_project_status_to_date, if_neg h1, if_pos h2]

/-- C7 witness: both branches of the amended statement at concrete inputs
(an empty collection, and a one-item collection with no events). -/
theorem c7_witness :
    calculate_project_status_to_date [] 0 0 = CalcOutcome.printedNoneReturn ∧
      calculate_project_status_to_date
          [{ key := "E", issuetypeName := "Story", histories := [] }] 0 0 =
        CalcOutcome.exn :=
  ⟨(c7_amended_behavior [] 0 0).1 rfl,
   (c7_amended_behavior
       [{ key := "E", issuetypeName := "Story", histories := [] }] 0 0).2
     (by simp) (by simp [allHistories])⟩

/-- C7 counterexample: on the empty collection the reconstructor returns the
printed-`None` outcome, not a typed `NoDataError`; and on a non-empty
collection with no events it raises an untyped exception, again not a typed
`NoDataError`.  The claim as stated is false. -/
theorem c7_counterexample :
    calculate_project_status_to_date [] 0 0 = CalcOutcome.printedNoneReturn ∧
      calculate_project_status_to_date [] 0 0 ≠ CalcOutcome.noDataError ∧
      calculate_project_status_to_date
          [{ key := "E", issuetypeName := "Story", histories := [] }] 0 0 ≠
        CalcOutcome.noDataError := by
  have h1 : calculate_project_status_to_date [] 0 0 =
      CalcOutcome.printedNoneReturn := by
    rw [calculate_project_status_to_date, if_pos rfl]
  have h2 : calculate_project_status_to_date
      [{ key := "E", issuetypeName := "Story", histories := [] }] 0 0 =
      CalcOutcome.exn := by
    rw [calculate_project_status_to_date, if_neg (by simp),
      if_pos (by simp [allHistories])]
  exact ⟨h1, by rw [h1]; simp, by rw [h2]; simp⟩

/-- C8 (amended): a change event whose field identifier is neither the
status field nor the size-estimate field is silently ignored by the replay:
folding a history's items over the state is the same as folding only the
recognized items, and no error of any kind is raised. -/
theorem c8_amended_silently_ignored :
    ∀ (s : LocalState) (items : List ChangeItem),
      items.foldl applyChangeItem s =
        (items.filter recognizedField).foldl applyChangeItem s := by
  intro s items
  induction items generalizing s with
  | nil => rfl
  | cons c t ih =>
    by_cases hc : recognizedField c = true
    · rw [List.filter_cons, if_pos hc, List.foldl_cons, List.foldl_cons]
      exact ih (applyChangeItem s c)
    · have hc2 : ¬ (c.field = "status") ∧ ¬ (c.field = "Story point estimate") := by
        simpa [recognizedField] using hc
      have hid : applyChangeItem s c = s := by
        rw [applyChangeItem, if_neg hc2.1, if_neg hc2.2]
      rw [List.filter_cons, if_neg (by simpa using hc), List.foldl_cons, hid]
      exact ih s

/-- C8 counterexample: a run over a single story whose only event has the
unrecognized field `Flagged` completes successfully with a zero-total
snapshot — no `ConfigurationError` (which does not exist in the source) is
raised; the event is silently dropped. -/
theorem c8_counterexample :
    calculate_project_status_to_date [issueF] 1 1 =
        CalcOutcome.ok
          [{ date := 1, days := 0, completed := 0, estimated := 0,
             unestPct := 0 }] ∧
      calculate_project_status_to_date [issueF] 1 1 ≠
        CalcOutcome.configurationError := by
  have hF1 : ("Flagged" : String) ≠ "status" := by decide
  have hF2 : ("Flagged" : String) ≠ "Story point estimate" := by decide
  have h : calculate_project_status_to_date [issueF] 1 1 =
      CalcOutcome.ok
        [{ date := 1, days := 0, completed := 0, estimated := 0,
           unestPct := 0 }] := by
    simp [calculate_project_status_to_date, allHistories, issueF, earliestDay,
      replayRange, dayLoopGo, processDay, processIssue, stateAsOf, uptoDay,
      sortedHistories, List.insertionSort, List.orderedInsert, tsLe,
      applyChangeItem, initMemo, memoFind, memoSetSP, memoSetCompleted,
      countNone, totalStoryCount, pyNe, pyEqZero, pyTruthy, pySubNum,
      hF1, hF2, addDays, List.filter_cons]
  exact ⟨h, by rw [h]; simp⟩

lemma memoSetSP_all_num (m : Memo) (k : String) (q : ℚ)
    (h : ∀ e ∈ m, e.2.1 ≠ PyVal.none) :
    ∀ e ∈ memoSetSP m k q, e.2.1 ≠ PyVal.none := by
  intro e he
  rw [memoSetSP] at he
  obtain ⟨x, hx, hxe⟩ := List.mem_map.1 he
  by_cases hk : x.1 = k
  · rw [if_pos hk] at hxe
    rw [← hxe]
    simp
  · rw [if_neg hk] at hxe
    rw [← hxe]
    exact h x hx

lemma memoSetCompleted_all_num (m : Memo) (k : String) (b : Bool)
    (h : ∀ e ∈ m, e.2.1 ≠ PyVal.none) :
    ∀ e ∈ memoSetCompleted m k b, e.2.1 ≠ PyVal.none := by
  intro e he
  rw [memoSetCompleted] at he
  obtain ⟨x, hx, hxe⟩ := List.mem_map.1 he
  by_cases hk : x.1 = k
  · rw [if_pos hk] at hxe
    rw [← hxe]
    exact h x hx
  · rw [if_neg hk] at hxe
    rw [← hxe]
    exact h x hx

lemma countNone_eq_zero (m : Memo) (h : ∀ e ∈ m, e.2.1 ≠ PyVal.none) :
    countNone m = 0 := by
  induction m with
  | nil => rfl
  | cons e t ih =>
    have he : e.2.1 ≠ PyVal.none := h e (List.mem_cons_self e t)
    simp [countNone, he, ih (fun x hx => h x (List.mem_cons_of_mem e hx))]

lemma processIssue_inv (d : ℤ) (issue : Issue) (acc : DayAcc)
    (h1 : ∀ e ∈ acc.memo, e.2.1 ≠ PyVal.none) (h2 : acc.cu = 0) :
    (∀ e ∈ (processIssue d acc issue).memo, e.2.1 ≠ PyVal.none) ∧
      (processIssue d acc issue).cu = 0 := by
  rw [processIssue]
  by_cases hstory : issue.issuetypeName = "Story"
  · rw [if_pos hstory]
    dsimp only
    set s := stateAsOf issue d with hs
    set last := memoFind acc.memo issue.key with hlast
    by_cases hsp : pyNe s.story_points last.1 = true
    · rw [if_pos hsp]
      have h1a := memoSetSP_all_num acc.memo issue.key s.story_points h1
      by_cases hco : s.completed ≠ last.2
      · rw [if_pos hco]
        dsimp only
        have h1b := memoSetCompleted_all_num _ issue.key s.completed h1a
        exact ⟨h1b, countNone_eq_zero _ h1b⟩
      · rw [if_neg hco]
        exact ⟨h1a, countNone_eq_zero _ h1a⟩
    · rw [if_neg hsp]
      by_cases hco : s.completed ≠ last.2
      · rw [if_pos hco]
        dsimp only
        have h1b := memoSetCompleted_all_num _ issue.key s.completed h1
        exact ⟨h1b, countNone_eq_zero _ h1b⟩
      · rw [if_neg hco]
        exact ⟨h1, countNone_eq_zero _ h1⟩
  · rw [if_neg hstory]
    exact ⟨h1, h2⟩

lemma processDay_inv (issues : List Issue) (d : ℤ) :
    ∀ acc : DayAcc,
      (∀ e ∈ acc.memo, e.2.1 ≠ PyVal.none) → acc.cu = 0 →
      (∀ e ∈ (processDay issues acc d).memo, e.2.1 ≠ PyVal.none) ∧
        (processDay issues acc d).cu = 0 := by
  induction issues with
  | nil => intro acc h1 h2; exact ⟨h1, h2⟩
  | cons i t ih =>
    intro acc h1 h2
    rw [processDay, List.foldl_cons]
    have hstep := processIssue_inv d i acc h1 h2
    exact ih (processIssue d acc i) hstep.1 hstep.2

lemma dayLoopGo_pct_zero (issues : List Issue) (total : ℕ) :
    ∀ (n : ℕ) (acc : DayAcc) (d : ℤ),
      (∀ e ∈ acc.memo, e.2.1 ≠ PyVal.none) → acc.cu = 0 →
      ∀ r ∈ dayLoopGo issues total n acc d, r.unestPct = 0 := by
  intro n
  induction n with
  | zero => intro acc d _ _ r hr; simp [dayLoopGo] at hr
  | succ n ih =>
    intro acc d h1 h2 r hr
    rw [dayLoopGo] at hr
    have hstep := processDay_inv issues d acc h1 h2
    rcases List.mem_cons.1 hr with hhd | htl
    · rw [hhd]
      show (if 0 < total then
          (((processDay issues acc d).cu : ℚ) / (total : ℚ)) * 100 else 0) = 0
      rw [hstep.2]
      by_cases ht : 0 < total
      · rw [if_pos ht]; norm_num
      · rw [if_neg ht]
    · exact ih (processDay issues acc d) (d + 1) hstep.1 hstep.2 r htl

lemma addDays_pct (l : List SnapRow) (r : HistRow) (hr : r ∈ addDays l) :
    ∃ s ∈ l, r.unestPct = s.unestPct := by
  cases l with
  | nil => simp [addDays] at hr
  | cons a t =>
    rw [addDays] at hr
    obtain ⟨s, hs, hse⟩ := List.mem_map.1 hr
    exact ⟨s, hs, by rw [← hse]⟩

/-- C10 (confirmed): in every successful reconstruction every emitted
snapshot has unestimated percentage 0, whether or not any measurable item
exists: the per-item memo is initialized to the float `0.0` and only ever
reassigned floats, so the `is None` count of line 119 is always zero. -/
theorem c10_unestimated_always_zero (issues : List Issue)
    (versionStartDay today : ℤ) (rows : List HistRow)
    (h : calculate_project_status_to_date issues versionStartDay today =
      CalcOutcome.ok rows) :
    ∀ r ∈ rows, r.unestPct = 0 := by
  rw [calculate_project_status_to_date] at h
  by_cases h1 : issues = []
  · rw [if_pos h1] at h
    exact absurd h (by simp)
  · rw [if_neg h1] at h
    by_cases h2 : allHistories issues = []
    · rw [if_pos h2] at h
      exact absurd h (by simp)
    · rw [if_neg h2] at h
      have hrows : addDays
          ((replayRange issues (earliestDay (allHistories issues)) today).filter
            (fun r => decide (versionStartDay - 1 ≤ r.date))) = rows := by
        injection h
      intro r hr
      rw [← hrows] at hr
      obtain ⟨s, hs, hpct⟩ := addDays_pct _ r hr
      have hs2 := List.mem_of_mem_filter hs
      rw [replayRange] at hs2
      have hinit : ∀ e ∈ (initMemo issues), e.2.1 ≠ PyVal.none := by
        intro e he
        rw [initMemo] at he
        obtain ⟨i, hi, hie⟩ := List.mem_map.1 he
        rw [← hie]
        simp
      have := dayLoopGo_pct_zero issues (totalStoryCount issues) _
        { cc := 0, ce := 0, cu := 0, memo := initMemo issues }
        (earliestDay (allHistories issues)) hinit rfl s hs2
      rw [hpct, this]

/-- C10 witness: applying the theorem to a concrete successful run and to
the first emitted snapshot shows its unestimated percentage is 0. -/
theorem c10_witness :
    ({ date := 3, days := 0, completed := 0, estimated := 5,
       unestPct := 0 : HistRow }).unestPct = 0 :=
  c10_unestimated_always_zero [issueA1] 4 4
    [ { date := 3, days := 0, completed := 0, estimated := 5, unestPct := 0 },
      { date := 4, days := 1, completed := 0, estimated := 5, unestPct := 0 } ]
    (by
      have hsp : ("Story point estimate" : String) ≠ "status" := by decide
      have h5 : (5 : ℚ) ≠ 0 := by norm_num
      simp [calculate_project_status_to_date, allHistories, issueA1,
        earliestDay, replayRange, dayLoopGo, processDay, processIssue,
        stateAsOf, uptoDay, sortedHistories, List.insertionSort,
        List.orderedInsert, tsLe, applyChangeItem, initMemo, memoFind,
        memoSetSP, memoSetCompleted, countNone, totalStoryCount, pyNe,
        pyEqZero, pyTruthy, pySubNum, hsp, h5, addDays, List.filter_cons])
    { date := 3, days := 0, completed := 0, estimated := 5, unestPct := 0 }
    (by simp)
